import Mathlib

/-!
Verification development for the `iptoasn-node` repository (crates
`iptoasn-core` and `iptoasn-node`).  The Rust sources are shallowly
embedded below: pure functions become Lean functions, the stateful
`load` / `force_update` paths become explicit state passing, and the
primitives that live outside the repository (Rust std's `IpAddr`
string parsing and display, `u32` parsing, serde JSON, gzip, the
filesystem) are abstracted as explicit inputs.

Decompressed text is represented as `List Char` and byte buffers that
`Database::parse` consumes are represented by the outcome of their
gzip decompression (`Option (List Char)`, `none` meaning the gzip
stream is invalid), since the decompressor itself is an external
library.
-/

/-- `std::net::IpAddr`: a tagged 32-bit IPv4 or 128-bit IPv6 address,
with the numeric value of the address carried as a `Nat`. -/
inductive IpAddr where
  | v4 : Nat → IpAddr
  | v6 : Nat → IpAddr
deriving DecidableEq

namespace IpAddr

/-- `true` for IPv4. Used to state the same-address-family invariant. -/
def family : IpAddr → Bool
  | .v4 _ => true
  | .v6 _ => false

/-- The derived `Ord` on `std::net::IpAddr`: variant `V4` sorts below
variant `V6`, and within a family addresses compare numerically. -/
def le : IpAddr → IpAddr → Prop
  | .v4 a, .v4 b => a ≤ b
  | .v4 _, .v6 _ => True
  | .v6 _, .v4 _ => False
  | .v6 a, .v6 b => a ≤ b

/-- Strict version of the derived order on `std::net::IpAddr`. -/
def lt : IpAddr → IpAddr → Prop
  | .v4 a, .v4 b => a < b
  | .v4 _, .v6 _ => True
  | .v6 _, .v4 _ => False
  | .v6 a, .v6 b => a < b

instance decLe : ∀ a b : IpAddr, Decidable (le a b)
  | .v4 a, .v4 b => inferInstanceAs (Decidable (a ≤ b))
  | .v4 _, .v6 _ => .isTrue trivial
  | .v6 _, .v4 _ => .isFalse fun h => h
  | .v6 a, .v6 b => inferInstanceAs (Decidable (a ≤ b))

instance decLt : ∀ a b : IpAddr, Decidable (lt a b)
  | .v4 a, .v4 b => inferInstanceAs (Decidable (a < b))
  | .v4 _, .v6 _ => .isTrue trivial
  | .v6 _, .v4 _ => .isFalse fun h => h
  | .v6 a, .v6 b => inferInstanceAs (Decidable (a < b))

instance : LinearOrder IpAddr where
  le := le
  lt := lt
  le_refl a := by cases a <;> simp [le]
  le_trans a b c := by
    cases a <;> cases b <;> cases c <;> simp [le] <;> omega
  le_antisymm a b := by
    cases a <;> cases b <;> simp [le] <;> omega
  le_total a b := by
    cases a <;> cases b <;> simp [le] <;> omega
  lt_iff_le_not_le a b := by
    cases a <;> cases b <;> simp [le, lt] <;> omega
  decidableLE := decLe
  decidableLT := decLt

end IpAddr

/-- `iptoasn-core/src/parser.rs`: one ASN record of the database. -/
structure AsnRecord where
  first_ip : IpAddr
  last_ip : IpAddr
  number : Nat
  country : String
  description : String
deriving DecidableEq

instance : Inhabited AsnRecord :=
  ⟨⟨.v4 0, .v4 0, 0, "", ""⟩⟩

/-- `iptoasn-core/src/parser.rs`: a parsed database. -/
structure Database where
  records : List AsnRecord
deriving DecidableEq

/-- The interval `[first_ip, last_ip]` of a record contains `ip`
(under the total `IpAddr` order). -/
def covers (r : AsnRecord) (ip : IpAddr) : Prop :=
  r.first_ip ≤ ip ∧ ip ≤ r.last_ip

instance (r : AsnRecord) (ip : IpAddr) : Decidable (covers r ip) :=
  inferInstanceAs (Decidable (_ ∧ _))

/-- A record is well-formed: `first_ip ≤ last_ip` and both endpoints
belong to the same address family. -/
def AsnRecord.wf (r : AsnRecord) : Prop :=
  r.first_ip ≤ r.last_ip ∧ r.first_ip.family = r.last_ip.family

instance (r : AsnRecord) : Decidable r.wf :=
  inferInstanceAs (Decidable (_ ∧ _))

/-- The record list is sorted ascending by `first_ip`. -/
def sortedByFirstIp (l : List AsnRecord) : Prop :=
  l.Pairwise fun a b => a.first_ip ≤ b.first_ip

/-- The intervals of the record list are pairwise non-overlapping. -/
def nonOverlapping (l : List AsnRecord) : Prop :=
  l.Pairwise fun a b => ∀ x : IpAddr, ¬(covers a x ∧ covers b x)

/-!
### Rust `slice::binary_search_by`

`AsnStore::lookup` calls `binary_search_by` from Rust's standard
library.  The loop below is its exact algorithm (`left`/`right`
bisection with `mid = left + size / 2`, `Less → left = mid + 1`,
`Greater → right = mid`, `Equal → Ok(mid)`, falling out to
`Err(left)`), written with a fuel argument so that the recursion is
structural; `fuel ≥ right - left` makes the fuel-0 case unreachable
while the range is non-empty.
-/

/-- The bisection loop of Rust `slice::binary_search_by`. -/
def bsGo {α : Type} [Inhabited α] (xs : List α) (f : α → Ordering) :
    Nat → Nat → Nat → Except Nat Nat
  | 0, left, _ => .error left
  | fuel + 1, left, right =>
    if left < right then
      match f (xs.getD (left + (right - left) / 2) default) with
      | .lt => bsGo xs f fuel (left + (right - left) / 2 + 1) right
      | .gt => bsGo xs f fuel left (left + (right - left) / 2)
      | .eq => .ok (left + (right - left) / 2)
    else .error left

/-- Rust `slice::binary_search_by`: `Ok idx` when the comparator
returns `Equal` at `idx`, `Err ins` with the insertion point
otherwise. -/
def binarySearchBy {α : Type} [Inhabited α] (xs : List α)
    (f : α → Ordering) : Except Nat Nat :=
  bsGo xs f xs.length 0 xs.length

/-- `iptoasn-core/src/store.rs`: the read-only store consulted by
lookups. -/
structure AsnStore where
  records : List AsnRecord
deriving DecidableEq

namespace AsnStore

/-- `AsnStore::new`: wrap the record vector of a parsed database. -/
def new (database : Database) : AsnStore :=
  ⟨database.records⟩

/-- The three-way comparator `AsnStore::lookup` passes to
`binary_search_by`: `Greater` when `ip < record.first_ip` (search the
lower half), `Less` when `ip > record.last_ip` (search the upper
half), `Equal` on a hit. -/
def lookupCmp (ip : IpAddr) (r : AsnRecord) : Ordering :=
  if ip < r.first_ip then .gt
  else if r.last_ip < ip then .lt
  else .eq

/-- `AsnStore::lookup`: bisect the record vector with `lookupCmp`;
`Ok(idx)` yields `records[idx]`, `Err(_)` yields `None`. -/
def lookup (s : AsnStore) (ip : IpAddr) : Option AsnRecord :=
  match binarySearchBy s.records (lookupCmp ip) with
  | .ok idx => some (s.records.getD idx default)
  | .error _ => none

end AsnStore

/-!
### Properties of the bisection loop
-/

/-- Soundness of the bisection: an `Ok idx` answer lies inside the
searched range and the comparator returns `Equal` there. -/
theorem bsGo_ok {α : Type} [Inhabited α] (xs : List α) (f : α → Ordering) :
    ∀ fuel left right idx, bsGo xs f fuel left right = .ok idx →
      left ≤ idx ∧ idx < right ∧ f (xs.getD idx default) = .eq := by
  intro fuel
  induction fuel with
  | zero =>
    intro left right idx h
    simp only [bsGo] at h
    cases h
  | succ n ih =>
    intro left right idx h
    by_cases hlr : left < right
    · simp only [bsGo] at h
      rw [if_pos hlr] at h
      cases hc : f (xs.getD (left + (right - left) / 2) default) <;> rw [hc] at h
      · obtain ⟨h1, h2, h3⟩ := ih _ _ _ h
        exact ⟨by omega, h2, h3⟩
      · cases h
        exact ⟨by omega, by omega, hc⟩
      · obtain ⟨h1, h2, h3⟩ := ih _ _ _ h
        exact ⟨h1, by omega, h3⟩
    · simp only [bsGo] at h
      rw [if_neg hlr] at h
      cases h

/-- An in-range `getD` is a member of the list. -/
theorem getD_mem_of_lt {α : Type} [Inhabited α] (l : List α) (i : Nat)
    (h : i < l.length) : l.getD i default ∈ l := by
  rw [List.getD_eq_getElem _ _ h]
  exact List.getElem_mem h

/-- In a list sorted by `first_ip`, the `first_ip` fields are monotone
in the index. -/
theorem sorted_first_le {l : List AsnRecord} (hs : sortedByFirstIp l)
    {i j : Nat} (hij : i ≤ j) (hj : j < l.length) :
    (l.getD i default).first_ip ≤ (l.getD j default).first_ip := by
  rcases Nat.eq_or_lt_of_le hij with rfl | hlt
  · exact le_refl _
  · have hi : i < l.length := lt_trans hlt hj
    rw [List.getD_eq_getElem _ _ hi, List.getD_eq_getElem _ _ hj]
    exact (List.pairwise_iff_getElem.mp hs) i j hi hj hlt

/-- Index form of the non-overlap hypothesis. -/
theorem nonoverlap_getD {l : List AsnRecord} (hno : nonOverlapping l)
    {i j : Nat} (hi : i < l.length) (hj : j < l.length) (hij : i < j)
    (x : IpAddr) :
    ¬(covers (l.getD i default) x ∧ covers (l.getD j default) x) := by
  have hp : List.Pairwise
      (fun a b => ∀ x : IpAddr, ¬(covers a x ∧ covers b x)) l := hno
  rw [List.getD_eq_getElem _ _ hi, List.getD_eq_getElem _ _ hj]
  exact (List.pairwise_iff_getElem.mp hp) i j hi hj hij x

/-- Index form of the well-formedness hypothesis. -/
theorem wf_getD {l : List AsnRecord}
    (hwf : ∀ r ∈ l, r.first_ip ≤ r.last_ip) {i : Nat} (hi : i < l.length) :
    (l.getD i default).first_ip ≤ (l.getD i default).last_ip :=
  hwf _ (getD_mem_of_lt l i hi)

/-- An `Equal` comparator answer means the record covers the query. -/
theorem lookupCmp_eq_covers {ip : IpAddr} {r : AsnRecord}
    (h : AsnStore.lookupCmp ip r = .eq) : covers r ip := by
  unfold AsnStore.lookupCmp at h
  by_cases h1 : ip < r.first_ip
  · rw [if_pos h1] at h; cases h
  · by_cases h2 : r.last_ip < ip
    · rw [if_neg h1, if_pos h2] at h; cases h
    · exact ⟨le_of_not_lt h1, le_of_not_lt h2⟩

/-- A `Less` comparator answer means the record ends below the query. -/
theorem lookupCmp_lt_last {ip : IpAddr} {r : AsnRecord}
    (h : AsnStore.lookupCmp ip r = .lt) : r.last_ip < ip := by
  unfold AsnStore.lookupCmp at h
  by_cases h1 : ip < r.first_ip
  · rw [if_pos h1] at h; cases h
  · by_cases h2 : r.last_ip < ip
    · exact h2
    · rw [if_neg h1, if_neg h2] at h; cases h

/-- A `Greater` comparator answer means the record starts above the
query. -/
theorem lookupCmp_gt_first {ip : IpAddr} {r : AsnRecord}
    (h : AsnStore.lookupCmp ip r = .gt) : ip < r.first_ip := by
  unfold AsnStore.lookupCmp at h
  by_cases h1 : ip < r.first_ip
  · exact h1
  · by_cases h2 : r.last_ip < ip
    · rw [if_neg h1, if_pos h2] at h; cases h
    · rw [if_neg h1, if_neg h2] at h; cases h

/-- Soundness of `AsnStore::lookup`: a returned record is a stored
record whose interval contains the queried address.  No hypothesis on
the store is needed. -/
theorem lookup_sound (s : AsnStore) (ip : IpAddr) (r : AsnRecord)
    (h : s.lookup ip = some r) : r ∈ s.records ∧ covers r ip := by
  unfold AsnStore.lookup binarySearchBy at h
  cases hb : bsGo s.records (AsnStore.lookupCmp ip)
      s.records.length 0 s.records.length with
  | error k => rw [hb] at h; cases h
  | ok idx =>
    rw [hb] at h
    obtain ⟨-, h2, h3⟩ := bsGo_ok _ _ _ _ _ _ hb
    have hr : s.records.getD idx default = r := Option.some.inj h
    subst hr
    exact ⟨getD_mem_of_lt _ _ h2, lookupCmp_eq_covers h3⟩

/-- Completeness of the bisection for sorted, well-formed,
non-overlapping records: when a covering record exists inside the
searched range, the loop answers `Ok`. -/
theorem bsGo_complete (l : List AsnRecord) (ip : IpAddr)
    (hs : sortedByFirstIp l) (hwf : ∀ r ∈ l, r.first_ip ≤ r.last_ip)
    (hno : nonOverlapping l) :
    ∀ fuel left right, right - left ≤ fuel → right ≤ l.length →
      (∃ j, left ≤ j ∧ j < right ∧ covers (l.getD j default) ip) →
      ∃ idx, bsGo l (AsnStore.lookupCmp ip) fuel left right = .ok idx := by
  intro fuel
  induction fuel with
  | zero =>
    rintro left right hf _ ⟨j, hj1, hj2, -⟩
    omega
  | succ n ih =>
    rintro left right hf hlen ⟨j, hj1, hj2, hjc⟩
    have hlr : left < right := by omega
    have hmidlt : left + (right - left) / 2 < right := by omega
    have hmidlen : left + (right - left) / 2 < l.length := by omega
    cases hc : AsnStore.lookupCmp ip
        (l.getD (left + (right - left) / 2) default) with
    | lt =>
      have hlast := lookupCmp_lt_last hc
      have hjmid : left + (right - left) / 2 + 1 ≤ j := by
        by_contra hcon
        push_neg at hcon
        rcases Nat.lt_or_ge j (left + (right - left) / 2) with hjlt | hjge
        · have hmwf := wf_getD hwf hmidlen
          have hcovj : covers (l.getD j default)
              (l.getD (left + (right - left) / 2) default).first_ip := by
            refine ⟨sorted_first_le hs (le_of_lt hjlt) hmidlen, ?_⟩
            exact le_trans hmwf (le_trans (le_of_lt hlast) hjc.2)
          have hcovm : covers (l.getD (left + (right - left) / 2) default)
              (l.getD (left + (right - left) / 2) default).first_ip :=
            ⟨le_refl _, hmwf⟩
          exact nonoverlap_getD hno (by omega) hmidlen hjlt _ ⟨hcovj, hcovm⟩
        · have hj : j = left + (right - left) / 2 := by omega
          rw [hj] at hjc
          exact absurd (lt_of_lt_of_le hlast hjc.2) (lt_irrefl _)
      obtain ⟨idx, hidx⟩ :=
        ih (left + (right - left) / 2 + 1) right (by omega) hlen
          ⟨j, hjmid, hj2, hjc⟩
      refine ⟨idx, ?_⟩
      simp only [bsGo]
      rw [if_pos hlr, hc]
      exact hidx
    | eq =>
      refine ⟨left + (right - left) / 2, ?_⟩
      simp only [bsGo]
      rw [if_pos hlr, hc]
    | gt =>
      have hfirst := lookupCmp_gt_first hc
      have hjmid : j < left + (right - left) / 2 := by
        by_contra hcon
        push_neg at hcon
        have hle := sorted_first_le hs hcon (show j < l.length by omega)
        exact absurd (lt_of_lt_of_le hfirst (le_trans hle hjc.1))
          (lt_irrefl _)
      obtain ⟨idx, hidx⟩ :=
        ih left (left + (right - left) / 2) (by omega) (by omega)
          ⟨j, hj1, hjmid, hjc⟩
      refine ⟨idx, ?_⟩
      simp only [bsGo]
      rw [if_pos hlr, hc]
      exact hidx

/-- Under non-overlap, at most one stored record covers a given
address. -/
theorem covers_unique {l : List AsnRecord} (hno : nonOverlapping l)
    {r r' : AsnRecord} {ip : IpAddr} (hr : r ∈ l) (hr' : r' ∈ l)
    (hc : covers r ip) (hc' : covers r' ip) : r = r' := by
  by_contra hne
  have hp : List.Pairwise
      (fun a b => ∀ x : IpAddr, ¬(covers a x ∧ covers b x)) l := hno
  have hsymm : Symmetric
      (fun a b : AsnRecord => ∀ x : IpAddr, ¬(covers a x ∧ covers b x)) :=
    fun a b h x hx => h x ⟨hx.2, hx.1⟩
  exact (hp.forall hsymm) hr hr' hne ip ⟨hc, hc'⟩

/-- Completeness of `AsnStore::lookup` for a sorted, well-formed,
non-overlapping store: a covered address is found. -/
theorem lookup_covering_exists (s : AsnStore) (ip : IpAddr)
    (hs : sortedByFirstIp s.records)
    (hwf : ∀ r ∈ s.records, r.first_ip ≤ r.last_ip)
    (hno : nonOverlapping s.records)
    (hex : ∃ r ∈ s.records, covers r ip) :
    ∃ r, s.lookup ip = some r ∧ covers r ip := by
  obtain ⟨r, hrmem, hrc⟩ := hex
  obtain ⟨j, hj, hjr⟩ := List.mem_iff_getElem.mp hrmem
  have hcov : covers (s.records.getD j default) ip := by
    rw [List.getD_eq_getElem _ _ hj, hjr]
    exact hrc
  obtain ⟨idx, hidx⟩ :=
    bsGo_complete s.records ip hs hwf hno s.records.length 0
      s.records.length (by omega) (le_refl _)
      ⟨j, Nat.zero_le _, hj, hcov⟩
  have hlook : s.lookup ip = some (s.records.getD idx default) := by
    unfold AsnStore.lookup binarySearchBy
    rw [hidx]
  obtain ⟨-, hcov'⟩ := lookup_sound s ip _ hlook
  exact ⟨_, hlook, hcov'⟩

/-- C1: for a store whose records are sorted ascending by `first_ip`,
well-formed (`first_ip ≤ last_ip`, same family) and pairwise
non-overlapping, `AsnStore::lookup` returns the unique record whose
interval contains the queried address when one exists, and `None`
when no record's interval contains it. -/
theorem C1_lookup_unique_covering (s : AsnStore) (ip : IpAddr)
    (hs : sortedByFirstIp s.records)
    (hwf : ∀ r ∈ s.records, r.wf)
    (hno : nonOverlapping s.records) :
    ((∃ r ∈ s.records, covers r ip) →
      ∃ r, s.lookup ip = some r ∧ covers r ip ∧
        ∀ r' ∈ s.records, covers r' ip → r' = r) ∧
    ((∀ r ∈ s.records, ¬covers r ip) → s.lookup ip = none) := by
  have hwf' : ∀ r ∈ s.records, r.first_ip ≤ r.last_ip :=
    fun r hr => (hwf r hr).1
  constructor
  · intro hex
    obtain ⟨r, hlook, hcov⟩ := lookup_covering_exists s ip hs hwf' hno hex
    obtain ⟨hmem, -⟩ := lookup_sound s ip r hlook
    exact ⟨r, hlook, hcov,
      fun r' hr' hc' => covers_unique hno hr' hmem hc' hcov⟩
  · intro hnone
    cases hl : s.lookup ip with
    | none => rfl
    | some r =>
      obtain ⟨hmem, hcov⟩ := lookup_sound s ip r hl
      exact absurd hcov (hnone r hmem)

/-- C10: with no precondition on the store at all, a record returned
by `AsnStore::lookup` is a stored record whose interval contains the
queried address, and lookup on an empty store returns `None`. -/
theorem C10_lookup_soundness (s : AsnStore) (ip : IpAddr) (r : AsnRecord) :
    (s.lookup ip = some r → r ∈ s.records ∧ covers r ip) ∧
    (s.records = [] → s.lookup ip = none) := by
  refine ⟨lookup_sound s ip r, fun h => ?_⟩
  unfold AsnStore.lookup binarySearchBy
  rw [h]
  rfl

/-- The single record of the spec's end-to-end scenario (a):
`8.8.8.0` – `8.8.8.255`, AS 15169, `US`, `GOOGLE`, with the IPv4
addresses written as their 32-bit numeric values. -/
def recGoogle : AsnRecord :=
  ⟨.v4 134744064, .v4 134744319, 15169, "US", "GOOGLE"⟩

/-- A store holding just `recGoogle`. -/
def storeGoogle : AsnStore :=
  ⟨[recGoogle]⟩

/-- The IPv4 address `8.8.8.8` as its numeric value. -/
def ip888 : IpAddr :=
  .v4 134744072

/-- Witness for C1: on the one-record Google store, looking up
`8.8.8.8` returns the unique covering record. -/
theorem C1_witness :
    ∃ r, storeGoogle.lookup ip888 = some r ∧ covers r ip888 ∧
      ∀ r' ∈ storeGoogle.records, covers r' ip888 → r' = r :=
  (C1_lookup_unique_covering storeGoogle ip888
      (by simp [sortedByFirstIp, storeGoogle])
      (by decide)
      (by simp [nonOverlapping, storeGoogle])).1
    ⟨recGoogle, by simp [storeGoogle], by decide⟩

/-- Witness for C10: the record returned for `8.8.8.8` on the Google
store covers it, and lookup on the empty store returns `None`. -/
theorem C10_witness :
    (recGoogle ∈ storeGoogle.records ∧ covers recGoogle ip888) ∧
    AsnStore.lookup ⟨[]⟩ ip888 = none :=
  ⟨(C10_lookup_soundness storeGoogle ip888 recGoogle).1 (by decide),
   (C10_lookup_soundness ⟨[]⟩ ip888 recGoogle).2 rfl⟩

/-!
### `iptoasn-core/src/error.rs` and the parser

`AppError` is the closed error taxonomy of the crate.  The
`Io`-wrapped `std::io::Error` is represented by its message.
-/

/-- `iptoasn-core/src/error.rs`: the closed set of application
errors. -/
inductive AppError where
  | httpRequest (msg : String)
  | httpParse (msg : String)
  | databaseParse (msg : String)
  | ioErr (msg : String)
  | invalidIp (ip : String)
  | databaseNotLoaded
deriving DecidableEq

/-- Split a character list at every occurrence of `sep`, keeping empty
pieces — the behaviour of Rust `str::split(char)`. -/
def splitCharAux (sep : Char) : List Char → List Char → List (List Char)
  | [], acc => [acc.reverse]
  | c :: cs, acc =>
    if c = sep then acc.reverse :: splitCharAux sep cs []
    else splitCharAux sep cs (c :: acc)

/-- Rust `str::split(sep)` on a character list. -/
def splitChar (sep : Char) (l : List Char) : List (List Char) :=
  splitCharAux sep l []

/-- Rust `str::lines()`: split at `'\n'`; every piece except the final
unterminated one loses one trailing `'\r'`; a final empty piece
(arising from a terminating newline) is dropped. -/
def rustLines (s : List Char) : List (List Char) :=
  let ps := splitChar '\n' s
  let init := ps.dropLast.map fun l =>
    if l.getLast? = some '\r' then l.dropLast else l
  match ps.getLast? with
  | some last => if last = [] then init else init ++ [last]
  | none => init

/-- The std / serde primitives the parser and façade call, abstracted:
`parseIp` is `str::parse::<IpAddr>`, `parseU32` is
`str::parse::<u32>`, `ipToString` is the `Display` of `IpAddr`, and
`parseMetadata` is serde deserialization of `CacheMetadata` (yielding
the optional etag and last-modified strings). -/
structure RustPrims where
  parseIp : String → Option IpAddr
  parseU32 : String → Option Nat
  ipToString : IpAddr → String
  parseMetadata : String → Option (Option String × Option String)

/-- Outcome of one line of the parse loop: skipped because blank,
counted as a row error (logged, not raised), or a parsed record. -/
inductive RowResult where
  | skip
  | err
  | record (r : AsnRecord)
deriving DecidableEq

/-- The record of a `RowResult`, when there is one. -/
def RowResult.record? : RowResult → Option AsnRecord
  | .record r => some r
  | _ => none

/-- The body of the per-line loop of `Database::parse`: skip a line
that is empty after trimming (`line.trim().is_empty()` holds exactly
when every character is whitespace); split on tab; require at least 3
fields; parse the two IPs and the AS number, any failure being a
logged row error; fields 3 and 4 default to the empty string. -/
def parseRow (prims : RustPrims) (line : List Char) : RowResult :=
  if line.all Char.isWhitespace then .skip
  else
    let parts := splitChar '\t' line
    if parts.length < 3 then .err
    else
      match prims.parseIp (String.mk (parts.getD 0 [])),
            prims.parseIp (String.mk (parts.getD 1 [])),
            prims.parseU32 (String.mk (parts.getD 2 [])) with
      | some first_ip, some last_ip, some number =>
        .record ⟨first_ip, last_ip, number,
          String.mk (parts.getD 3 []), String.mk (parts.getD 4 [])⟩
      | _, _, _ => .err

/-- The sort key of `records.sort_by(|a, b| a.first_ip.cmp(&b.first_ip))`. -/
def byFirstIp (a b : AsnRecord) : Prop :=
  a.first_ip ≤ b.first_ip

instance : DecidableRel byFirstIp :=
  fun a b => inferInstanceAs (Decidable (a.first_ip ≤ b.first_ip))

instance : IsTotal AsnRecord byFirstIp :=
  ⟨fun a b => le_total a.first_ip b.first_ip⟩

instance : IsTrans AsnRecord byFirstIp :=
  ⟨fun _ _ _ hab hbc => le_trans hab hbc⟩

/-- `Database::parse` (`iptoasn-core/src/parser.rs`).  The gzip input
byte buffer is represented by the outcome of its decompression:
`none` when the gzip stream is invalid (the only error path), `some
data` with the decompressed text otherwise.  Per-line failures are
skipped (the source logs them and counts them without raising), and
the surviving records are stably sorted ascending by `first_ip`,
modelling Rust's stable `sort_by` with a stable insertion sort. -/
def Database.parse (prims : RustPrims) (gz : Option (List Char)) :
    Except AppError Database :=
  match gz with
  | none => .error (.databaseParse "Failed to decompress")
  | some data =>
    .ok ⟨List.insertionSort byFirstIp
      ((rustLines data).filterMap
        fun line => (parseRow prims line).record?)⟩

/-!
### Concrete standard-library primitives

A concrete `RustPrims` used to evaluate the development on concrete
inputs.  `parseIpv4` models `str::parse::<Ipv4Addr>` on dotted-quad
literals (four decimal octets `0..=255`, no leading zeros); textual
IPv6 forms and IPv6 display are not modelled (no concrete input below
uses them), so `parseIp` answers `none` on anything that is not a
dotted quad and `ipToString` renders only IPv4. -/

/-- Decimal value of a digit list (callers check `isDigit` first). -/
def digitsToNat (l : List Char) : Nat :=
  l.foldl (fun a c => a * 10 + (c.toNat - 48)) 0

/-- One dotted-quad octet: 1–3 decimal digits, value `≤ 255`, no
leading zero. -/
def parseOctet (l : List Char) : Option Nat :=
  if l = [] ∨ 3 < l.length then none
  else if 1 < l.length ∧ l.getD 0 ' ' = '0' then none
  else if l.all Char.isDigit then
    if digitsToNat l ≤ 255 then some (digitsToNat l) else none
  else none

/-- `str::parse::<Ipv4Addr>` on dotted-quad literals. -/
def parseIpv4 (s : String) : Option IpAddr :=
  match splitChar '.' s.data with
  | [a, b, c, d] =>
    match parseOctet a, parseOctet b, parseOctet c, parseOctet d with
    | some a, some b, some c, some d =>
      some (.v4 (((a * 256 + b) * 256 + c) * 256 + d))
    | _, _, _, _ => none
  | _ => none

/-- `str::parse::<u32>`: an optional `+`, then decimal digits, value
below `2^32`. -/
def parseU32dec (s : String) : Option Nat :=
  let l := match s.data with
    | '+' :: rest => rest
    | l => l
  if l = [] then none
  else if l.all Char.isDigit then
    if digitsToNat l < 4294967296 then some (digitsToNat l) else none
  else none

/-- `Display` of `Ipv4Addr`: dotted-quad decimal. -/
def ipv4ToString (n : Nat) : String :=
  Nat.repr (n / 16777216 % 256) ++ "." ++ Nat.repr (n / 65536 % 256)
    ++ "." ++ Nat.repr (n / 256 % 256) ++ "." ++ Nat.repr (n % 256)

/-- IPv4-only model of the `Display` of `IpAddr`. -/
def ipToStringModel : IpAddr → String
  | .v4 n => ipv4ToString n
  | .v6 _ => ""

/-- The concrete primitives (metadata JSON parsing is unused by every
concrete input below, so it conservatively reports malformed). -/
def rustPrims0 : RustPrims :=
  ⟨parseIpv4, parseU32dec, ipToStringModel, fun _ => none⟩

/-!
### Parser properties
-/

/-- The record vector produced by `Database::parse` is sorted
ascending by `first_ip`. -/
theorem parse_sorted_helper (prims : RustPrims) (gz : Option (List Char))
    (db : Database) (h : Database.parse prims gz = .ok db) :
    sortedByFirstIp db.records := by
  cases gz with
  | none => simp [Database.parse] at h
  | some data =>
    simp only [Database.parse] at h
    cases h
    exact List.sorted_insertionSort byFirstIp _

/-- The record vector produced by `Database::parse` is a permutation
of the per-line parse successes. -/
theorem parse_perm_helper (prims : RustPrims) (data : List Char)
    (db : Database) (h : Database.parse prims (some data) = .ok db) :
    db.records.Perm ((rustLines data).filterMap
      fun line => (parseRow prims line).record?) := by
  simp only [Database.parse] at h
  cases h
  exact List.perm_insertionSort byFirstIp _

/-- C6: every database accepted by `Database::parse` has its record
vector sorted ascending by `first_ip` under the total `IpAddr` order,
and hence so has the record vector of the store built from it. -/
theorem C6_parse_sorted (prims : RustPrims) (gz : Option (List Char))
    (db : Database) (h : Database.parse prims gz = .ok db) :
    sortedByFirstIp db.records ∧
      sortedByFirstIp (AsnStore.new db).records :=
  ⟨parse_sorted_helper prims gz db h, parse_sorted_helper prims gz db h⟩

/-- C5: `Database::parse` fails exactly when gzip decompression
fails, with a `DatabaseParse` error; with decompression succeeding it
returns `Ok`, and the records kept are exactly (a permutation, by the
final sort, of) the per-row successes — malformed rows are skipped
individually, well-formed rows are all kept. -/
theorem C5_parse_errors (prims : RustPrims) (gz : Option (List Char)) :
    ((∃ e, Database.parse prims gz = .error e) ↔ gz = none) ∧
    (∀ e, Database.parse prims gz = .error e →
      e = .databaseParse "Failed to decompress") ∧
    (∀ data db, gz = some data → Database.parse prims gz = .ok db →
      db.records.Perm ((rustLines data).filterMap
        fun line => (parseRow prims line).record?)) := by
  cases gz with
  | none =>
    refine ⟨⟨fun _ => rfl, fun _ => ⟨.databaseParse "Failed to decompress", rfl⟩⟩,
      ?_, ?_⟩
    · intro e he
      exact (Except.error.inj he).symm
    · intro data db hd
      cases hd
  | some data =>
    refine ⟨⟨?_, ?_⟩, ?_, ?_⟩
    · rintro ⟨e, he⟩
      simp [Database.parse] at he
    · intro h
      cases h
    · intro e he
      simp [Database.parse] at he
    · intro data' db hd hp
      cases hd
      exact parse_perm_helper prims data db hp

/-!
### Concrete inputs
-/

/-- Decompressed text with one well-formed row (scenario (a) of the
spec), a blank line and one malformed row, the well-formed rows out
of order. -/
def dataMix : List Char :=
  ("9.9.9.9\t9.9.9.9\t2\n\nbadline\n8.8.8.0\t8.8.8.255\t15169\tUS\tGOOGLE\n").data

/-- The record of the `9.9.9.9` row of `dataMix`. -/
def rec99 : AsnRecord :=
  ⟨.v4 151587081, .v4 151587081, 2, "", ""⟩

/-- The database parsed from `dataMix`. -/
def dbMix : Database :=
  ⟨[recGoogle, rec99]⟩

/-- Witness for C6: parsing `dataMix` yields the sorted `dbMix`. -/
theorem C6_witness :
    sortedByFirstIp dbMix.records ∧
      sortedByFirstIp (AsnStore.new dbMix).records :=
  C6_parse_sorted rustPrims0 (some dataMix) dbMix rfl

/-- Witness for C5: the records parsed from `dataMix` are a
permutation of its per-row successes. -/
theorem C5_witness :
    dbMix.records.Perm ((rustLines dataMix).filterMap
      fun line => (parseRow rustPrims0 line).record?) :=
  (C5_parse_errors rustPrims0 (some dataMix)).2.2 dataMix dbMix rfl rfl

/-- A row whose two IPs are reversed: `0.0.0.2` – `0.0.0.1`. -/
def dataRev : List Char :=
  ("0.0.0.2\t0.0.0.1\t1\n").data

/-- The (ill-formed) record parsed from `dataRev`. -/
def recRev : AsnRecord :=
  ⟨.v4 2, .v4 1, 1, "", ""⟩

/-- Counterexample to C3: `Database::parse` accepts `dataRev` and the
resulting database contains a record with `first_ip > last_ip` — the
parser never checks the interval orientation. -/
theorem C3_counterexample :
    Database.parse rustPrims0 (some dataRev) = .ok ⟨[recRev]⟩ ∧
    recRev ∈ (⟨[recRev]⟩ : Database).records ∧
    ¬(recRev.first_ip ≤ recRev.last_ip) :=
  ⟨rfl, by simp, by decide⟩

/-- A parsed row yields a well-formed record (`Bool`-valued so that
the hypothesis of the amended C3 is decidable on concrete inputs). -/
def rowWf (prims : RustPrims) (line : List Char) : Bool :=
  match parseRow prims line with
  | .record r => decide r.wf
  | _ => true

/-- C3 amended: the parser performs no well-formedness validation, so
the records of a parsed database are well-formed exactly when the
ingested rows are: if every row that parses yields a well-formed
record, every record of the database is well-formed. -/
theorem C3_parse_wf_of_rows (prims : RustPrims) (data : List Char)
    (db : Database) (h : Database.parse prims (some data) = .ok db)
    (hrows : ∀ line ∈ rustLines data, rowWf prims line = true) :
    ∀ r ∈ db.records, r.wf := by
  intro r hr
  simp only [Database.parse] at h
  cases h
  have hr' : r ∈ (rustLines data).filterMap
      (fun line => (parseRow prims line).record?) :=
    (List.mem_insertionSort byFirstIp).1 hr
  obtain ⟨line, hline, hrec⟩ := List.mem_filterMap.mp hr'
  have hw := hrows line hline
  unfold rowWf at hw
  cases hpr : parseRow prims line with
  | skip =>
    rw [hpr] at hrec
    simp [RowResult.record?] at hrec
  | err =>
    rw [hpr] at hrec
    simp [RowResult.record?] at hrec
  | record r' =>
    rw [hpr] at hrec hw
    simp only [RowResult.record?] at hrec
    cases hrec
    exact of_decide_eq_true hw

/-- Witness for the amended C3: every row of `dataMix` is
well-formed, so both records of `dbMix` are. -/
theorem C3_witness : recGoogle.wf ∧ rec99.wf :=
  ⟨C3_parse_wf_of_rows rustPrims0 dataMix dbMix rfl (by decide)
      recGoogle (by simp [dbMix]),
   C3_parse_wf_of_rows rustPrims0 dataMix dbMix rfl (by decide)
      rec99 (by simp [dbMix])⟩

/-- Overlapping input rows: `[0.0.0.0, 0.0.0.20]`, `[0.0.0.1,
0.0.0.19]`, `[0.0.0.2, 0.0.0.3]`, `[0.0.0.4, 0.0.0.5]` (already in
`first_ip` order). -/
def dataOverlap : List Char :=
  ("0.0.0.0\t0.0.0.20\t1\n0.0.0.1\t0.0.0.19\t2\n0.0.0.2\t0.0.0.3\t3\n0.0.0.4\t0.0.0.5\t4\n").data

/-- First overlapping record of `dataOverlap`. -/
def recO0 : AsnRecord := ⟨.v4 0, .v4 20, 1, "", ""⟩

/-- Second overlapping record of `dataOverlap`. -/
def recO1 : AsnRecord := ⟨.v4 1, .v4 19, 2, "", ""⟩

/-- Third record of `dataOverlap`. -/
def recO2 : AsnRecord := ⟨.v4 2, .v4 3, 3, "", ""⟩

/-- Fourth record of `dataOverlap`. -/
def recO3 : AsnRecord := ⟨.v4 4, .v4 5, 4, "", ""⟩

/-- The database parsed from `dataOverlap`. -/
def dbOverlap : Database :=
  ⟨[recO0, recO1, recO2, recO3]⟩

/-- Counterexample to C2: on the parse-produced store of
`dataOverlap`, the address `0.0.0.10` is covered by two records
(`recO0` and `recO1`), yet the bisection reports a miss — `lookup`
returns `None` even though covering records exist. -/
theorem C2_counterexample :
    Database.parse rustPrims0 (some dataOverlap) = .ok dbOverlap ∧
    recO0 ∈ dbOverlap.records ∧ recO1 ∈ dbOverlap.records ∧
    covers recO0 (.v4 10) ∧ covers recO1 (.v4 10) ∧
    (AsnStore.new dbOverlap).lookup (.v4 10) = none :=
  ⟨rfl, by simp [dbOverlap], by simp [dbOverlap],
   by decide, by decide, rfl⟩

/-- C2 amended: for a parse-produced store the hit direction of the
claim holds unconditionally — a returned record is a stored record
covering the queried address — while the converse (covered implies
hit) requires well-formed, pairwise non-overlapping records; with
overlapping (malformed) input the lookup may return `None` for a
covered address. -/
theorem C2_parse_lookup (prims : RustPrims) (gz : Option (List Char))
    (db : Database) (h : Database.parse prims gz = .ok db)
    (ip : IpAddr) :
    (∀ r, (AsnStore.new db).lookup ip = some r →
      r ∈ db.records ∧ covers r ip) ∧
    ((∀ r ∈ db.records, r.first_ip ≤ r.last_ip) →
      nonOverlapping db.records →
      (∃ r ∈ db.records, covers r ip) →
      ∃ r, (AsnStore.new db).lookup ip = some r ∧ covers r ip) := by
  constructor
  · intro r hr
    exact lookup_sound (AsnStore.new db) ip r hr
  · intro hwf hno hex
    exact lookup_covering_exists (AsnStore.new db) ip
      (parse_sorted_helper prims gz db h) hwf hno hex

/-- Witness for the amended C2: on the store parsed from `dataMix`
(well-formed, non-overlapping), looking up `8.8.8.8` hits a covering
record. -/
theorem C2_witness :
    ∃ r, (AsnStore.new dbMix).lookup ip888 = some r ∧ covers r ip888 :=
  (C2_parse_lookup rustPrims0 (some dataMix) dbMix rfl ip888).2
    (by decide)
    (by
      have hdisj : ∀ x : IpAddr, ¬(covers recGoogle x ∧ covers rec99 x) := by
        rintro x ⟨⟨-, h2⟩, h3, -⟩
        exact absurd (le_trans h3 h2) (by decide)
      exact List.Pairwise.cons
        (fun b hb => by rw [List.mem_singleton.mp hb]; exact hdisj)
        (List.pairwise_singleton _ _))
    ⟨recGoogle, by simp [dbMix], by decide⟩

/-!
### `iptoasn-core/src/lib.rs`: the database façade

`IpToAsnDb::load` and the lookup path are embedded with their I/O
dependencies as explicit inputs: the outcomes of `fetcher.fetch()`
and `fetcher.load_from_cache()` form a `FetchEnv`, the engine state
(the installed store and the `last_update` timestamp, with
`SystemTime` modelled as `Nat`) is threaded explicitly, and the wall
clock is a parameter.
-/

/-- `iptoasn-core/src/lib.rs`: `AsnInfo`, the lookup result shape. -/
structure AsnInfo where
  ip : String
  announced : Bool
  first_ip : Option String
  last_ip : Option String
  as_number : Option Nat
  as_country_code : Option String
  as_description : Option String
deriving DecidableEq

/-- `iptoasn-core/src/lib.rs`: `DbStats`. -/
structure DbStats where
  record_count : Nat
  last_update : Option Nat
deriving DecidableEq

/-- The mutable state of an `IpToAsnDb`: the hot-swapped store and
the `last_update` timestamp. -/
structure DbState where
  store : AsnStore
  last_update : Option Nat
deriving DecidableEq

/-- Outcomes of the two fetcher calls `load` makes: `fetch()`
(`Ok(Some bytes)` a new snapshot, `Ok(None)` the 304 "unchanged"
sentinel, `Err`) and `load_from_cache()`.  Byte buffers are
represented by their decompression outcome, as in `Database.parse`. -/
structure FetchEnv where
  fetch : Except AppError (Option (Option (List Char)))
  cache : Except AppError (Option (List Char))

namespace IpToAsnDb

/-- Step 2 of `IpToAsnDb::load`: the bytes the cycle proceeds with —
the fetched bytes when the fetch succeeds with new data, otherwise
(unchanged sentinel or fetch error) the cache, whose own failure
propagates. -/
def chooseData (env : FetchEnv) : Except AppError (Option (List Char)) :=
  match env.fetch with
  | .ok (some data) => .ok data
  | .ok none => env.cache
  | .error _ => env.cache

/-- `IpToAsnDb::load`: choose the bytes, parse them, and only on
success install the new store and set `last_update` to now; the `?`
propagations return before either state write happens. -/
def load (prims : RustPrims) (env : FetchEnv) (st : DbState)
    (now : Nat) : Except AppError Unit × DbState :=
  match chooseData env with
  | .error e => (.error e, st)
  | .ok data =>
    match Database.parse prims data with
    | .error e => (.error e, st)
    | .ok database => (.ok (), ⟨AsnStore.new database, some now⟩)

/-- `IpToAsnDb::new` (state part): an empty store and no
`last_update`. -/
def initState : DbState :=
  ⟨AsnStore.new ⟨[]⟩, none⟩

/-- `IpToAsnDb::lookup`: parse the query string as an `IpAddr`
(failure is `InvalidIp`), consult the store, and build the
`AsnInfo`: `announced = true` with the five record fields filled on a
hit, `announced = false` with the queried string echoed and all five
fields absent on a miss. -/
def lookup (prims : RustPrims) (store : AsnStore) (ip : String) :
    Except AppError AsnInfo :=
  match prims.parseIp ip with
  | none => .error (.invalidIp ip)
  | some parsed_ip =>
    match store.lookup parsed_ip with
    | some record =>
      .ok ⟨ip, true, some (prims.ipToString record.first_ip),
        some (prims.ipToString record.last_ip), some record.number,
        some record.country, some record.description⟩
    | none => .ok ⟨ip, false, none, none, none, none, none⟩

/-- `IpToAsnDb::stats`. -/
def stats (st : DbState) : DbStats :=
  ⟨st.store.records.length, st.last_update⟩

end IpToAsnDb

/-!
### `iptoasn-core/src/fetcher.rs`: construction

`DatabaseFetcher::new` touches the filesystem: it creates the cache
directory (`fs::create_dir_all`) and reads the persisted metadata
file.  The filesystem is modelled as a list of existing directories
and an association list of file contents.
-/

/-- A model filesystem. -/
structure Fs where
  dirs : List String
  files : List (String × String)
deriving DecidableEq

/-- Content of a file, when present. -/
def Fs.readFile (fs : Fs) (p : String) : Option String :=
  (fs.files.find? fun q => q.1 = p).map fun q => q.2

/-- `fs::create_dir_all`. -/
def Fs.createDirAll (fs : Fs) (d : String) : Fs :=
  if d ∈ fs.dirs then fs else ⟨d :: fs.dirs, fs.files⟩

/-- The fields of a constructed `DatabaseFetcher` (the HTTP client, a
pure configuration value, is omitted). -/
structure FetcherState where
  url : String
  cache_path : String
  metadata_path : String
  etag : Option String
  last_modified : Option String
deriving DecidableEq

/-- `DatabaseFetcher::load_metadata`: read and deserialize the
metadata file; missing or malformed content yields fresh `(None,
None)` state (logged, not fatal). -/
def load_metadata (prims : RustPrims) (fs : Fs) (path : String) :
    Option String × Option String :=
  match fs.readFile path with
  | some content =>
    match prims.parseMetadata content with
    | some m => m
    | none => (none, none)
  | none => (none, none)

/-- `DatabaseFetcher::new`: create the cache directory, derive the
two cache paths, load the persisted metadata; returns the filesystem
after these effects together with the fetcher state. -/
def DatabaseFetcher.new (prims : RustPrims) (url cache_dir : String)
    (fs : Fs) : Fs × FetcherState :=
  (fs.createDirAll cache_dir,
    ⟨url, cache_dir ++ "/ip2asn-combined.tsv.gz",
      cache_dir ++ "/metadata.json",
      (load_metadata prims (fs.createDirAll cache_dir)
        (cache_dir ++ "/metadata.json")).1,
      (load_metadata prims (fs.createDirAll cache_dir)
        (cache_dir ++ "/metadata.json")).2⟩)

/-- `IpToAsnDb::new`: construct the fetcher (with its filesystem
effects) and install the initial state. -/
def IpToAsnDb.new (prims : RustPrims) (url cache_dir : String)
    (fs : Fs) : Fs × FetcherState × DbState :=
  ((DatabaseFetcher.new prims url cache_dir fs).1,
    (DatabaseFetcher.new prims url cache_dir fs).2,
    IpToAsnDb.initState)

/-- `IpToAsn::force_update` (`iptoasn-node/src/lib.rs`): one
synchronous `load` cycle; an error propagates, and otherwise the
result is the constant `true` (the source comment notes it cannot
tell "updated" from "cached" and returns `true` "for simplicity"). -/
def IpToAsn.force_update (prims : RustPrims) (env : FetchEnv)
    (st : DbState) (now : Nat) : Except AppError Bool × DbState :=
  match IpToAsnDb.load prims env st now with
  | (.ok _, st') => (.ok true, st')
  | (.error e, st') => (.error e, st')

/-!
### Façade properties
-/

/-- A `chooseData` failure is exactly the cache failure. -/
theorem chooseData_error (env : FetchEnv) (e : AppError)
    (h : IpToAsnDb.chooseData env = .error e) : env.cache = .error e := by
  unfold IpToAsnDb.chooseData at h
  cases hf : env.fetch with
  | ok o =>
    cases o with
    | some d => rw [hf] at h; cases h
    | none => rw [hf] at h; exact h
  | error er => rw [hf] at h; exact h

/-- C4: whenever `load` returns an error the engine state is exactly
as before the call — the store and `last_update` writes never happen
— and the error is either the cache-read error or a parse error of
the chosen bytes; moreover, on the "unchanged" sentinel or a fetch
error, the cycle proceeds with the cached bytes rather than failing
immediately. -/
theorem C4_load_error_frame (prims : RustPrims) (env : FetchEnv)
    (st : DbState) (now : Nat) :
    (∀ e, (IpToAsnDb.load prims env st now).1 = .error e →
      (IpToAsnDb.load prims env st now).2 = st ∧
      (env.cache = .error e ∨
        ∃ data, IpToAsnDb.chooseData env = .ok data ∧
          Database.parse prims data = .error e)) ∧
    ((env.fetch = .ok none ∨ ∃ er, env.fetch = .error er) →
      IpToAsnDb.chooseData env = env.cache) := by
  constructor
  · intro e he
    cases hc : IpToAsnDb.chooseData env with
    | error e' =>
      have hload : IpToAsnDb.load prims env st now = (.error e', st) := by
        simp only [IpToAsnDb.load, hc]
      rw [hload] at he
      have hee : e' = e := Except.error.inj he
      subst hee
      rw [hload]
      exact ⟨rfl, .inl (chooseData_error env e' hc)⟩
    | ok data =>
      cases hp : Database.parse prims data with
      | error e' =>
        have hload : IpToAsnDb.load prims env st now = (.error e', st) := by
          simp only [IpToAsnDb.load, hc, hp]
        rw [hload] at he
        have hee : e' = e := Except.error.inj he
        subst hee
        rw [hload]
        exact ⟨rfl, .inr ⟨data, rfl, hp⟩⟩
      | ok database =>
        have hload : IpToAsnDb.load prims env st now =
            (.ok (), ⟨AsnStore.new database, some now⟩) := by
          simp only [IpToAsnDb.load, hc, hp]
        rw [hload] at he
        cases he
  · rintro (hf | ⟨er, hf⟩) <;> simp only [IpToAsnDb.chooseData, hf]

/-- A fetch failure together with an empty cache. -/
def envFail : FetchEnv :=
  ⟨.error (.httpRequest "request failed"), .error .databaseNotLoaded⟩

/-- Witness for C4: with a failing fetch and an empty cache, `load`
errors with the cache error and leaves the initial state intact. -/
theorem C4_witness :
    (IpToAsnDb.load rustPrims0 envFail IpToAsnDb.initState 5).2 =
      IpToAsnDb.initState ∧
    (envFail.cache = .error .databaseNotLoaded ∨
      ∃ data, IpToAsnDb.chooseData envFail = .ok data ∧
        Database.parse rustPrims0 data = .error .databaseNotLoaded) :=
  (C4_load_error_frame rustPrims0 envFail IpToAsnDb.initState 5).1
    .databaseNotLoaded rfl

/-- C7: the façade lookup fails exactly when the query string does
not parse as an IP address, and then with `InvalidIp` carrying the
query; when the string parses, the result is `Ok` — on a store hit
`announced = true` with the record's five fields rendered, on a miss
`announced = false` with the query echoed and all five fields
absent. -/
theorem C7_lookup_shape (prims : RustPrims) (store : AsnStore)
    (s : String) :
    ((∃ e, IpToAsnDb.lookup prims store s = .error e) ↔
      prims.parseIp s = none) ∧
    (prims.parseIp s = none →
      IpToAsnDb.lookup prims store s = .error (.invalidIp s)) ∧
    (∀ parsed, prims.parseIp s = some parsed →
      (∀ r, store.lookup parsed = some r →
        IpToAsnDb.lookup prims store s =
          .ok ⟨s, true, some (prims.ipToString r.first_ip),
            some (prims.ipToString r.last_ip), some r.number,
            some r.country, some r.description⟩) ∧
      (store.lookup parsed = none →
        IpToAsnDb.lookup prims store s =
          .ok ⟨s, false, none, none, none, none, none⟩)) := by
  cases hp : prims.parseIp s with
  | none =>
    have hstep : IpToAsnDb.lookup prims store s = .error (.invalidIp s) := by
      simp only [IpToAsnDb.lookup, hp]
    refine ⟨⟨fun _ => rfl, fun _ => ⟨.invalidIp s, hstep⟩⟩,
      fun _ => hstep, ?_⟩
    intro parsed hpar
    cases hpar
  | some parsed_ip =>
    have hstep : IpToAsnDb.lookup prims store s =
        match store.lookup parsed_ip with
        | some record =>
          .ok ⟨s, true, some (prims.ipToString record.first_ip),
            some (prims.ipToString record.last_ip), some record.number,
            some record.country, some record.description⟩
        | none => .ok ⟨s, false, none, none, none, none, none⟩ := by
      simp only [IpToAsnDb.lookup, hp]
    refine ⟨⟨?_, ?_⟩, ?_, ?_⟩
    · rintro ⟨e, he⟩
      rw [hstep] at he
      cases hl : store.lookup parsed_ip <;> rw [hl] at he <;> cases he
    · intro h
      cases h
    · intro h
      cases h
    · intro parsed hpar
      have hpe : parsed_ip = parsed := Option.some.inj hpar
      subst hpe
      constructor
      · intro r hr
        rw [hstep, hr]
      · intro hnone
        rw [hstep, hnone]

/-- Witness for C7: on the one-record Google store, `"8.8.8.8"` hits
with all fields rendered and `"not-an-ip"` yields `InvalidIp`. -/
theorem C7_witness :
    IpToAsnDb.lookup rustPrims0 storeGoogle "8.8.8.8" =
      .ok ⟨"8.8.8.8", true, some "8.8.8.0", some "8.8.8.255",
        some 15169, some "US", some "GOOGLE"⟩ ∧
    IpToAsnDb.lookup rustPrims0 storeGoogle "not-an-ip" =
      .error (.invalidIp "not-an-ip") :=
  ⟨((C7_lookup_shape rustPrims0 storeGoogle "8.8.8.8").2.2
      ip888 rfl).1 recGoogle rfl,
   (C7_lookup_shape rustPrims0 storeGoogle "not-an-ip").2.1 rfl⟩

/-- The origin answers with the 304 unchanged sentinel and the cache
holds the bytes of `dataMix`. -/
def envUnchanged : FetchEnv :=
  ⟨.ok none, .ok (some dataMix)⟩

/-- C8 evaluation: with the origin reporting the snapshot unchanged
(304), `force_update` still answers `Ok true` — and in general it can
only ever answer `Ok true` or an error, never `Ok false`, so the
returned boolean does not reflect whether a new snapshot was
adopted. -/
theorem C8_force_update_always_true :
    (IpToAsn.force_update rustPrims0 envUnchanged
      IpToAsnDb.initState 7).1 = .ok true ∧
    ∀ (prims : RustPrims) (env : FetchEnv) (st : DbState) (now : Nat),
      (IpToAsn.force_update prims env st now).1 = .ok true ∨
      ∃ e, (IpToAsn.force_update prims env st now).1 = .error e := by
  refine ⟨rfl, ?_⟩
  intro prims env st now
  unfold IpToAsn.force_update
  cases hl : IpToAsnDb.load prims env st now with
  | mk res st' =>
    cases res with
    | ok u => exact .inl rfl
    | error e => exact .inr ⟨e, rfl⟩

/-- Counterexample to C9: constructing the engine on a filesystem
that lacks the cache directory changes the filesystem —
`DatabaseFetcher::new` runs `fs::create_dir_all(cache_dir)` — so
construction does perform filesystem I/O. -/
theorem C9_counterexample :
    (IpToAsnDb.new rustPrims0 "file:///db.gz" "/cache"
      ⟨[], []⟩).1 ≠ (⟨[], []⟩ : Fs) := by
  decide

/-- C9 amended: construction performs no network I/O and its only
filesystem effects are creating the cache directory and reading the
persisted metadata file (file contents are left untouched); it
installs the initial state — an empty store, `stats().record_count =
0` and an absent `last_update` — until the first `load`. -/
theorem C9_new_effects (prims : RustPrims) (url cache_dir : String)
    (fs : Fs) :
    (IpToAsnDb.new prims url cache_dir fs).1.files = fs.files ∧
    (IpToAsnDb.new prims url cache_dir fs).1.dirs =
      (if cache_dir ∈ fs.dirs then fs.dirs else cache_dir :: fs.dirs) ∧
    (IpToAsnDb.new prims url cache_dir fs).2.2.store.records = [] ∧
    (IpToAsnDb.new prims url cache_dir fs).2.2.last_update = none ∧
    (IpToAsnDb.stats (IpToAsnDb.new prims url cache_dir fs).2.2).record_count
      = 0 := by
  unfold IpToAsnDb.new DatabaseFetcher.new Fs.createDirAll
  by_cases hd : cache_dir ∈ fs.dirs <;>
    simp [hd, IpToAsnDb.initState, IpToAsnDb.stats, AsnStore.new]
